import Mathlib

/-!
# chat-react: the chat screen of `src/App.js`

A shallow embedding of the two asynchronous operations of the `App` component,
`fetchAll` (lines 31-46) and `handleSend` (lines 58-90), together with the send
button that is the only caller of `handleSend` (lines 166-170).

* React state (`useState`) is the record `AppState`; a setter call is a state update.
* The outside world is explicit: every `fetch` call is appended to a request trace,
  every `Alert.alert` call to an alert trace.
* `try / catch / finally`, `throw` and rejected promises are modelled by a state-and-exception
  monad `Js` in which the state survives a throw, as it does in JavaScript.
* What the JavaScript host supplies (the network's answers, the `Date` constructor, the clock,
  the wording of runtime `TypeError`s) is a parameter, the record `Env`.
-/

namespace ChatReact

/-! ## JavaScript values -/

/-- A value produced by `res.json()`: a parsed JSON document. -/
inductive JsVal where
  | null
  | bool (b : Bool)
  | num (n : Int)
  | str (s : String)
  | arr (items : List JsVal)
  | obj (fields : List (String × JsVal))

mutual
/-- Structural equality test on JSON values. -/
def JsVal.beq : JsVal → JsVal → Bool
  | .null, .null => true
  | .bool a, .bool b => a == b
  | .num a, .num b => a == b
  | .str a, .str b => a == b
  | .arr a, .arr b => JsVal.beqList a b
  | .obj a, .obj b => JsVal.beqFields a b
  | _, _ => false
/-- Structural equality test on lists of JSON values. -/
def JsVal.beqList : List JsVal → List JsVal → Bool
  | [], [] => true
  | x :: xs, y :: ys => JsVal.beq x y && JsVal.beqList xs ys
  | _, _ => false
/-- Structural equality test on the field lists of JSON objects. -/
def JsVal.beqFields : List (String × JsVal) → List (String × JsVal) → Bool
  | [], [] => true
  | (k, x) :: xs, (l, y) :: ys => k == l && JsVal.beq x y && JsVal.beqFields xs ys
  | _, _ => false
end

/-- A thrown value. Everything this program throws or catches is an `Error` object:
`new Error(...)` in the program, `TypeError` from the runtime and from a rejected `fetch`,
`SyntaxError` from `res.json()`. -/
structure JsError where
  name : String
  message : String
  deriving DecidableEq, Repr

/-- `new Error(message)`. -/
def mkError (message : String) : JsError := ⟨"Error", message⟩

/-- `Error.prototype.toString`, which `String(err)` calls on an `Error` object. -/
def JsError.toStr (e : JsError) : String :=
  if e.name = "" then e.message
  else if e.message = "" then e.name
  else e.name ++ ": " ++ e.message

/-- `String(err?.message || err)` (lines 42 and 86): the message when it is a non-empty
string, otherwise the error converted to a string. -/
def errString (err : JsError) : String :=
  if err.message ≠ "" then err.message else err.toStr

/-! ## Strings: `String.prototype.trim` -/

/-- The code points `trim` strips: ECMAScript WhiteSpace and LineTerminator. -/
def isWhiteSpace (c : Char) : Bool :=
  let n := c.toNat
  n = 0x09 || n = 0x0A || n = 0x0B || n = 0x0C || n = 0x0D || n = 0x20 || n = 0xA0 ||
  n = 0x1680 || (0x2000 ≤ n && n ≤ 0x200A) || n = 0x2028 || n = 0x2029 || n = 0x202F ||
  n = 0x205F || n = 0x3000 || n = 0xFEFF

/-- Strip the white space at both ends of a list of characters. -/
def trimChars (cs : List Char) : List Char :=
  ((cs.dropWhile isWhiteSpace).reverse.dropWhile isWhiteSpace).reverse

/-- `s.trim()`. -/
def trim (s : String) : String := ⟨trimChars s.data⟩

/-! ## The host: network, clock, `Date` -/

/-- The object literal `payload` of lines 64-68, serialised as the POST body. -/
structure Payload where
  author : String
  text : String
  createdAt : String
  deriving DecidableEq, Repr

/-- A call of `fetch`. -/
inductive Request where
  | get (url : String)
  | post (url : String) (contentType : String) (body : Payload)
  deriving DecidableEq, Repr

/-- What `await fetch(API_URL)` gives: the promise rejects, or resolves to a response with a
status and a body for which `res.json()` rejects or resolves. -/
inductive GetOutcome where
  | rejected (err : JsError)
  | resolved (status : Nat) (json : Except JsError JsVal)

/-- What `await fetch(API_URL, {method: "POST", ...})` gives: the promise rejects, or resolves
to a response with a status and a body for which `res.text()` rejects (`none`) or resolves. -/
inductive PostOutcome where
  | rejected (err : JsError)
  | resolved (status : Nat) (text : Option String)

/-- Everything the JavaScript host decides. One operation issues at most one GET and at most
one POST, so one outcome of each kind describes the network. -/
structure Env where
  /-- Time value of `new Date(v)` for a JSON value `v`; `none` is NaN (an invalid date).
  The constructor is taken not to throw. It does throw for an object whose own `valueOf` and
  `toString` keys hide the inherited methods; no property below rests on such a value. -/
  dateValue : JsVal → Option Int
  /-- Result of `new Date().toISOString()`. -/
  nowIso : String
  /-- Message of the `TypeError` raised by spreading a value that is not iterable. -/
  spreadMessage : JsVal → String
  /-- Message of the `TypeError` raised by reading a property of `null`. -/
  nullPropertyMessage : String
  /-- Answer of the network to the GET. -/
  get : GetOutcome
  /-- Answer of the network to the POST. -/
  post : PostOutcome

/-- The constant `API_URL` (line 17). -/
def API_URL : String := "https://68b09bc33b8db1ae9c047dcd.mockapi.io/messages"

/-- `res.ok`: the status is in the range 200-299. -/
def statusOk (status : Nat) : Bool := 200 ≤ status && status ≤ 299

/-! ## Component state and the effect monad -/

/-- The `useState` cells of `App` (lines 20-28). -/
structure AppState where
  username : String
  loggedIn : Bool
  messages : List JsVal
  loadingList : Bool
  refreshing : Bool
  text : String
  submitting : Bool

/-- A call `Alert.alert(title, message)`. -/
structure AlertBox where
  title : String
  message : String
  deriving DecidableEq, Repr

/-- The component state together with the observable effects so far, oldest first. -/
structure World where
  app : AppState
  requests : List Request
  alerts : List AlertBox

/-- A JavaScript computation: from a world it either returns or throws, and leaves a world. -/
def Js (α : Type) : Type := World → Except JsError α × World

/-- Return a value. -/
def Js.pure {α : Type} (a : α) : Js α := fun w => (.ok a, w)

/-- Sequencing: a throw skips the rest and keeps the state reached. -/
def Js.bind {α β : Type} (m : Js α) (f : α → Js β) : Js β := fun w =>
  match m w with
  | (.ok a, w1) => f a w1
  | (.error e, w1) => (.error e, w1)

instance : Monad Js where
  pure := Js.pure
  bind := Js.bind

/-- The statement `throw e`. -/
def throwJs {α : Type} (e : JsError) : Js α := fun w => (.error e, w)

/-- Await a promise that has settled: a rejection is thrown. -/
def await {α : Type} (r : Except JsError α) : Js α := fun w => (r, w)

/-- The statement `try { body } catch (err) { handler } finally { fin }`. -/
def tryCatchFinally (body : Js Unit) (handler : JsError → Js Unit) (fin : Js Unit) : Js Unit :=
  fun w =>
    let r := match body w with
      | (.ok a, w1) => (Except.ok a, w1)
      | (.error e, w1) => handler e w1
    match fin r.2 with
    | (.ok _, w2) => (r.1, w2)
    | (.error e, w2) => (.error e, w2)

/-- The setter `setMessages`. -/
def setMessages (v : List JsVal) : Js Unit := fun w =>
  (.ok (), { w with app := { w.app with messages := v } })

/-- The setter `setLoadingList`. -/
def setLoadingList (v : Bool) : Js Unit := fun w =>
  (.ok (), { w with app := { w.app with loadingList := v } })

/-- The setter `setText`. -/
def setText (v : String) : Js Unit := fun w =>
  (.ok (), { w with app := { w.app with text := v } })

/-- The setter `setSubmitting`. -/
def setSubmitting (v : Bool) : Js Unit := fun w =>
  (.ok (), { w with app := { w.app with submitting := v } })

/-- The call `Alert.alert(title, message)`. -/
def alert (title message : String) : Js Unit := fun w =>
  (.ok (), { w with alerts := w.alerts ++ [⟨title, message⟩] })

/-- Response object of the GET, as far as the program reads it. -/
structure GetResponse where
  status : Nat
  json : Except JsError JsVal

/-- Response object of the POST, as far as the program reads it. -/
structure PostResponse where
  status : Nat
  text : Option String

/-- The expression `await fetch(API_URL)`: the request is issued, then its outcome observed. -/
def fetchGet (env : Env) : Js GetResponse := fun w =>
  let w1 := { w with requests := w.requests ++ [Request.get API_URL] }
  match env.get with
  | .rejected e => (.error e, w1)
  | .resolved status json => (.ok ⟨status, json⟩, w1)

/-- The expression `await fetch(API_URL, {method: "POST", headers, body})` of lines 72-76. -/
def fetchPost (env : Env) (payload : Payload) : Js PostResponse := fun w =>
  let w1 := { w with requests := w.requests ++ [Request.post API_URL "application/json" payload] }
  match env.post with
  | .rejected e => (.error e, w1)
  | .resolved status text => (.ok ⟨status, text⟩, w1)


/-! ## `fetchAll` -/

/-- The property read `a.createdAt` on a JSON value: reading a property of `null` throws a
`TypeError`; an object gives the value of its key (the last one when `JSON.parse` met the key
twice) or `undefined` (`none`); strings, numbers, booleans and arrays give `undefined`. -/
def getCreatedAt (env : Env) : JsVal → Except JsError (Option JsVal)
  | .null => .error ⟨"TypeError", env.nullPropertyMessage⟩
  | .obj fields => .ok (fields.reverse.lookup "createdAt")
  | _ => .ok none

/-- Time value of `new Date(a.createdAt)`; `none` is NaN. `new Date(undefined)` is an invalid
date; for a defined value the host decides. -/
def timeOf (env : Env) (a : JsVal) : Except JsError (Option Int) := do
  let c ← getCreatedAt env a
  match c with
  | none => pure none
  | some v => pure (env.dateValue v)

/-- The comparator `(a, b) => new Date(a.createdAt) - new Date(b.createdAt)` (line 38).
The left operand is evaluated first; the difference is NaN when either date is invalid.
Time values are integers, so the sign of the floating-point difference is the sign of the
integer difference. -/
def compareCreatedAt (env : Env) (a b : JsVal) : Except JsError (Option Int) := do
  let ta ← timeOf env a
  let tb ← timeOf env b
  match ta, tb with
  | some x, some y => pure (some (x - y))
  | _, _ => pure none

/-- The spread `[...data]` (line 37): an array is copied, a string is split into its code
points, anything else JSON can hold is not iterable and throws a `TypeError`. -/
def spread (env : Env) : JsVal → Except JsError (List JsVal)
  | .arr items => .ok items
  | .str s => .ok (s.data.map fun c => JsVal.str ⟨[c]⟩)
  | v => .error ⟨"TypeError", env.spreadMessage v⟩

/-- ECMAScript SortCompare with a comparator: the comparator is called, an exception it
throws ends the sort, and a NaN result counts as +0. -/
def sortCompare {α : Type} (cmp : α → α → Except JsError (Option Int)) (x y : α) :
    Except JsError Int := do
  let v ← cmp x y
  pure (v.getD 0)

/-- Insert `a`, which preceded every element of the list in the array, into the sorted list:
in front of the first element it does not compare greater than. -/
def orderedInsertM {α : Type} (cmp : α → α → Except JsError (Option Int)) (a : α) :
    List α → Except JsError (List α)
  | [] => pure [a]
  | b :: l => do
    let v ← sortCompare cmp a b
    if v ≤ 0 then pure (a :: b :: l)
    else do
      let rest ← orderedInsertM cmp a l
      pure (b :: rest)

/-- The method `Array.prototype.sort(cmp)` on an array without holes or `undefined`.
ECMAScript requires a stable sort and leaves the sequence of comparator calls to the engine;
the engine is represented by a stable insertion sort. For a comparator that is inconsistent
(NaN for some pairs only) engines give different orders; the properties below use the sort
only where the comparator is consistent or throws. -/
def arraySort {α : Type} (cmp : α → α → Except JsError (Option Int)) :
    List α → Except JsError (List α)
  | [] => pure []
  | a :: l => do
    let sorted ← arraySort cmp l
    orderedInsertM cmp a sorted

/-- The `try` block of `fetchAll` (lines 33-40). -/
def fetchAllTry (env : Env) : Js Unit := do
  setLoadingList true
  let res ← fetchGet env
  if !statusOk res.status then
    throwJs (mkError ("GET falhou: " ++ toString res.status))
  let data ← await res.json
  let items ← await (spread env data)
  let sorted ← await (arraySort (compareCreatedAt env) items)
  setMessages sorted

/-- The function `fetchAll` (lines 31-46). -/
def fetchAll (env : Env) : Js Unit :=
  tryCatchFinally (fetchAllTry env)
    (fun err => alert "Erro ao buscar" (errString err))
    (setLoadingList false)

/-! ## `handleSend` and the send button -/

/-- The `try` block of `handleSend` (lines 71-84). -/
def handleSendTry (env : Env) (payload : Payload) : Js Unit := do
  setSubmitting true
  let res ← fetchPost env payload
  if !statusOk res.status then
    let errText := res.text.getD ""
    throwJs (mkError ("POST falhou: " ++ toString res.status ++ " " ++ errText))
  setText ""
  fetchAll env

/-- The function `handleSend` (lines 58-90). `text` and `username` are the state values of
the render in which the handler was created. -/
def handleSend (env : Env) : Js Unit := fun w =>
  let text := w.app.text
  let username := w.app.username
  if trim text = "" then
    alert "Validação" "Digite uma mensagem." w
  else
    let payload : Payload :=
      { author := username, text := trim text, createdAt := env.nowIso }
    tryCatchFinally (handleSendTry env payload)
      (fun err => alert "Erro ao enviar" (errString err))
      (setSubmitting false) w

/-- A press on the send button (lines 166-170): `disabled={submitting}` makes the press do
nothing; otherwise `onPress` calls `handleSend`. -/
def pressSend (env : Env) : Js Unit := fun w =>
  if w.app.submitting then (.ok (), w) else handleSend env w

/-! ## The suspension point of `handleSend`

`handleSend` is an `async` function: it runs without interruption up to
`await fetch(API_URL, {method: "POST", ...})`, where the request has gone out, and resumes
when the response arrives. In between the submission is pending and the user can type and
press the send button. -/

/-- The first half of the awaited POST: `fetch` is called and the request goes out. -/
def issuePost (payload : Payload) : Js Unit := fun w =>
  (.ok (),
    { w with requests := w.requests ++ [Request.post API_URL "application/json" payload] })

/-- The second half of the awaited POST: the function resumes with the response, or the
rejection is thrown. -/
def settlePost (env : Env) : Js PostResponse := fun w =>
  match env.post with
  | .rejected e => (.error e, w)
  | .resolved status text => (.ok ⟨status, text⟩, w)

/-- The `try` block of `handleSend` up to the point where it suspends (lines 71-76):
`setSubmitting(true)` and the call of `fetch`. -/
def handleSendSuspend (payload : Payload) : Js Unit := do
  setSubmitting true
  issuePost payload

/-- The `try` block of `handleSend` from the point where it resumes (lines 72-84). -/
def handleSendResume (env : Env) : Js Unit := do
  let res ← settlePost env
  if !statusOk res.status then
    let errText := res.text.getD ""
    throwJs (mkError ("POST falhou: " ++ toString res.status ++ " " ++ errText))
  setText ""
  fetchAll env

/-- The world in which the submission started by `handleSend` in `w` is pending: the function
has run up to its suspension point and the response of the POST has not arrived. -/
def pendingWorld (env : Env) (w : World) : World :=
  (handleSendSuspend ⟨w.app.username, trim w.app.text, env.nowIso⟩ w).2

/-! ## Vocabulary of the properties -/

/-- What the `try` block of `fetchAll` computes apart from its state updates: the array it
hands to `setMessages`, or the value it throws. -/
def fetchAllValue (env : Env) : Except JsError (List JsVal) :=
  match env.get with
  | .rejected e => .error e
  | .resolved status json =>
    if !statusOk status then .error (mkError ("GET falhou: " ++ toString status))
    else do
      let data ← json
      let items ← spread env data
      arraySort (compareCreatedAt env) items

/-- Time value of `new Date(m.createdAt)` when it is a valid date, 0 otherwise. -/
def timeKey (env : Env) (m : JsVal) : Int :=
  match timeOf env m with
  | .ok (some t) => t
  | _ => 0

/-- The element has a valid timestamp: reading `createdAt` does not throw and
`new Date(m.createdAt)` is a valid date. -/
def validTimestamp (env : Env) (m : JsVal) : Bool :=
  match timeOf env m with
  | .ok (some _) => true
  | _ => false

/-- Ascending order of the time values. -/
def timeLe (env : Env) (a b : JsVal) : Prop := timeKey env a ≤ timeKey env b

instance (env : Env) : DecidableRel (timeLe env) := fun a b =>
  inferInstanceAs (Decidable (timeKey env a ≤ timeKey env b))

/-- The text is empty or consists only of white space. -/
def isBlank (s : String) : Bool := s.data.all isWhiteSpace

/-- The value is `null`. -/
def JsVal.isNull : JsVal → Bool
  | .null => true
  | _ => false

/-- A body that `fetchAll` cannot turn into a list: `res.json()` rejects (the body is not
JSON), the parsed value is not iterable (`null`, a boolean, a number, an object), or it is an
array of two or more elements holding `null`, on which the comparator throws. -/
def bodyRejected : Except JsError JsVal → Bool
  | .error _ => true
  | .ok .null => true
  | .ok (.bool _) => true
  | .ok (.num _) => true
  | .ok (.obj _) => true
  | .ok (.arr xs) => xs.any JsVal.isNull && decide (2 ≤ xs.length)
  | .ok (.str _) => false

/-! ## Concrete scenarios -/

/-- The message `bob/hi@10:00` of the scenario. -/
def msgBob : JsVal :=
  .obj [("id", .str "2"), ("author", .str "bob"), ("text", .str "hi"),
    ("createdAt", .str "2024-01-01T10:00:00Z")]

/-- The message `amy/yo@09:00` of the scenario. -/
def msgAmy : JsVal :=
  .obj [("id", .str "1"), ("author", .str "amy"), ("text", .str "yo"),
    ("createdAt", .str "2024-01-01T09:00:00Z")]

/-- The `Date` constructor on the two timestamps of the scenario, in milliseconds since the
epoch; every other value counts as an invalid date. -/
def scenarioDate : JsVal → Option Int
  | .str "2024-01-01T10:00:00Z" => some 1704103200000
  | .str "2024-01-01T09:00:00Z" => some 1704099600000
  | _ => none

/-- A host whose server accepts the POST and returns `[bob, amy]` to the GET. -/
def scenarioEnv : Env where
  dateValue := scenarioDate
  nowIso := "2024-01-01T11:00:00.000Z"
  spreadMessage := fun _ => "data is not iterable"
  nullPropertyMessage := "Cannot read property of null"
  get := .resolved 200 (.ok (.arr [msgBob, msgAmy]))
  post := .resolved 201 (some "")

/-- A host whose server answers HTTP 500 to the POST. -/
def postFailsEnv : Env where
  dateValue := scenarioDate
  nowIso := "2024-01-01T11:00:00.000Z"
  spreadMessage := fun _ => "data is not iterable"
  nullPropertyMessage := "Cannot read property of null"
  get := .resolved 200 (.ok (.arr [msgBob, msgAmy]))
  post := .resolved 500 none

/-- A host whose server accepts the POST and answers HTTP 503 to the GET. -/
def getFailsEnv : Env where
  dateValue := scenarioDate
  nowIso := "2024-01-01T11:00:00.000Z"
  spreadMessage := fun _ => "data is not iterable"
  nullPropertyMessage := "Cannot read property of null"
  get := .resolved 503 (.error ⟨"SyntaxError", "Unexpected token"⟩)
  post := .resolved 201 (some "")

/-- A host whose server answers the GET with status 200 and the JSON string `"ab"`. -/
def stringBodyEnv : Env where
  dateValue := scenarioDate
  nowIso := "2024-01-01T11:00:00.000Z"
  spreadMessage := fun _ => "data is not iterable"
  nullPropertyMessage := "Cannot read property of null"
  get := .resolved 200 (.ok (.str "ab"))
  post := .resolved 201 (some "")

/-- A host whose server answers the GET with status 200 and the empty JSON object. -/
def objectBodyEnv : Env where
  dateValue := scenarioDate
  nowIso := "2024-01-01T11:00:00.000Z"
  spreadMessage := fun _ => "data is not iterable"
  nullPropertyMessage := "Cannot read property of null"
  get := .resolved 200 (.ok (.obj []))
  post := .resolved 201 (some "")

/-- The chat screen of user amy showing one message, with three spaces typed. -/
def blankWorld : World :=
  ⟨⟨"amy", true, [msgAmy], false, false, "   ", false⟩, [], []⟩

/-- The chat screen of user amy showing one message, with the text ` hi ` typed. -/
def typedWorld : World :=
  ⟨⟨"amy", true, [msgAmy], false, false, " hi ", false⟩, [], []⟩

/-- The same screen while an earlier submission is in flight. -/
def busyWorld : World :=
  ⟨⟨"amy", true, [msgAmy], false, false, " hi ", true⟩, [], []⟩

/-! ## Boilerplate: decidable equality -/

mutual
theorem JsVal.beq_iff : ∀ a b : JsVal, JsVal.beq a b = true ↔ a = b
  | .null, b => by cases b <;> simp [JsVal.beq]
  | .bool x, b => by cases b <;> simp [JsVal.beq]
  | .num x, b => by cases b <;> simp [JsVal.beq]
  | .str x, b => by cases b <;> simp [JsVal.beq]
  | .arr x, b => by cases b <;> simp [JsVal.beq, JsVal.beqList_iff x]
  | .obj x, b => by cases b <;> simp [JsVal.beq, JsVal.beqFields_iff x]
theorem JsVal.beqList_iff : ∀ a b : List JsVal, JsVal.beqList a b = true ↔ a = b
  | [], b => by cases b <;> simp [JsVal.beqList]
  | x :: xs, b => by cases b <;> simp [JsVal.beqList, JsVal.beq_iff x, JsVal.beqList_iff xs]
theorem JsVal.beqFields_iff :
    ∀ a b : List (String × JsVal), JsVal.beqFields a b = true ↔ a = b
  | [], b => by cases b <;> simp [JsVal.beqFields]
  | (k, x) :: xs, b => by
    cases b with
    | nil => simp [JsVal.beqFields]
    | cons h t =>
      obtain ⟨l, y⟩ := h
      simp [JsVal.beqFields, JsVal.beq_iff x, JsVal.beqFields_iff xs, and_assoc]
end

instance : DecidableEq JsVal := fun a b =>
  decidable_of_iff _ (JsVal.beq_iff a b)


deriving instance DecidableEq for AppState
deriving instance DecidableEq for World

/-! ## Auxiliary lemmas -/

theorem fetchAll_eq (env : Env) (w : World) :
    fetchAll env w =
      (.ok (),
        match fetchAllValue env with
        | .ok sorted =>
          { app := { w.app with messages := sorted, loadingList := false },
            requests := w.requests ++ [Request.get API_URL],
            alerts := w.alerts }
        | .error e =>
          { app := { w.app with loadingList := false },
            requests := w.requests ++ [Request.get API_URL],
            alerts := w.alerts ++ [⟨"Erro ao buscar", errString e⟩] }) := by
  cases hg : env.get with
  | rejected e =>
    simp [fetchAll, tryCatchFinally, fetchAllTry, fetchAllValue, Bind.bind, Js.bind, Pure.pure,
      Js.pure, setLoadingList, fetchGet, throwJs, await, setMessages, alert, hg]
  | resolved status json =>
    cases hs : statusOk status with
    | false =>
      simp [fetchAll, tryCatchFinally, fetchAllTry, fetchAllValue, Bind.bind, Js.bind, Pure.pure,
        Js.pure, setLoadingList, fetchGet, throwJs, await, setMessages, alert, hg, hs]
    | true =>
      cases json with
      | error e =>
        simp [fetchAll, tryCatchFinally, fetchAllTry, fetchAllValue, Bind.bind, Js.bind,
          Pure.pure, Js.pure, setLoadingList, fetchGet, throwJs, await, setMessages, alert, hg,
          hs, Except.bind]
      | ok data =>
        cases hsp : spread env data with
        | error e =>
          simp [fetchAll, tryCatchFinally, fetchAllTry, fetchAllValue, Bind.bind, Js.bind,
            Pure.pure, Js.pure, setLoadingList, fetchGet, throwJs, await, setMessages, alert,
            hg, hs, hsp, Except.bind]
        | ok items =>
          cases hso : arraySort (compareCreatedAt env) items with
          | error e =>
            simp [fetchAll, tryCatchFinally, fetchAllTry, fetchAllValue, Bind.bind, Js.bind,
              Pure.pure, Js.pure, setLoadingList, fetchGet, throwJs, await, setMessages, alert,
              hg, hs, hsp, hso, Except.bind]
          | ok sorted =>
            simp [fetchAll, tryCatchFinally, fetchAllTry, fetchAllValue, Bind.bind, Js.bind,
              Pure.pure, Js.pure, setLoadingList, fetchGet, throwJs, await, setMessages, alert,
              hg, hs, hsp, hso, Except.bind]

theorem fetchAllTry_throws_iff (env : Env) (w : World) (e : JsError) :
    (fetchAllTry env w).1 = .error e ↔ fetchAllValue env = .error e := by
  cases hg : env.get with
  | rejected e2 =>
    simp [fetchAllTry, fetchAllValue, Bind.bind, Js.bind, setLoadingList, fetchGet, hg]
  | resolved status json =>
    cases hs : statusOk status with
    | false =>
      simp [fetchAllTry, fetchAllValue, Bind.bind, Js.bind, setLoadingList, fetchGet, throwJs,
        hg, hs]
    | true =>
      cases json with
      | error e2 =>
        simp [fetchAllTry, fetchAllValue, Bind.bind, Js.bind, Pure.pure, Js.pure,
          setLoadingList, fetchGet, await, hg, hs, Except.bind]
      | ok data =>
        cases hsp : spread env data with
        | error e2 =>
          simp [fetchAllTry, fetchAllValue, Bind.bind, Js.bind, Pure.pure, Js.pure,
            setLoadingList, fetchGet, await, hg, hs, hsp, Except.bind]
        | ok items =>
          cases hso : arraySort (compareCreatedAt env) items with
          | error e2 =>
            simp [fetchAllTry, fetchAllValue, Bind.bind, Js.bind, Pure.pure, Js.pure,
              setLoadingList, fetchGet, await, hg, hs, hsp, hso, Except.bind]
          | ok sorted =>
            simp [fetchAllTry, fetchAllValue, Bind.bind, Js.bind, Pure.pure, Js.pure,
              setLoadingList, fetchGet, await, setMessages, hg, hs, hsp, hso, Except.bind]

theorem timeOf_of_valid {env : Env} {m : JsVal} (h : validTimestamp env m = true) :
    timeOf env m = .ok (some (timeKey env m)) := by
  unfold validTimestamp at h
  unfold timeKey
  split at h <;> simp_all

theorem sortCompare_of_valid {env : Env} {a b : JsVal} (ha : validTimestamp env a = true)
    (hb : validTimestamp env b = true) :
    sortCompare (compareCreatedAt env) a b = .ok (timeKey env a - timeKey env b) := by
  simp [sortCompare, compareCreatedAt, timeOf_of_valid ha, timeOf_of_valid hb, Bind.bind,
    Except.bind, Pure.pure, Except.pure]

theorem orderedInsertM_of_valid {env : Env} {a : JsVal} (ha : validTimestamp env a = true) :
    ∀ l : List JsVal, (∀ m ∈ l, validTimestamp env m = true) →
      orderedInsertM (compareCreatedAt env) a l = .ok (List.orderedInsert (timeLe env) a l)
  | [], _ => rfl
  | b :: l, hl => by
    have hb : validTimestamp env b = true := hl b (List.mem_cons_self b l)
    have ih := orderedInsertM_of_valid ha l (fun m hm => hl m (List.mem_cons_of_mem b hm))
    by_cases hle : timeKey env a ≤ timeKey env b
    · have h0 : timeKey env a - timeKey env b ≤ 0 := by omega
      simp [orderedInsertM, sortCompare_of_valid ha hb, Bind.bind, Except.bind, Pure.pure,
        Except.pure, h0, timeLe, hle]
    · have h0 : ¬ timeKey env a - timeKey env b ≤ 0 := by omega
      simp [orderedInsertM, sortCompare_of_valid ha hb, Bind.bind, Except.bind, Pure.pure,
        Except.pure, h0, timeLe, hle, ih]

theorem arraySort_of_valid {env : Env} :
    ∀ xs : List JsVal, (∀ m ∈ xs, validTimestamp env m = true) →
      arraySort (compareCreatedAt env) xs = .ok (List.insertionSort (timeLe env) xs)
  | [], _ => rfl
  | a :: l, hl => by
    have ha : validTimestamp env a = true := hl a (List.mem_cons_self a l)
    have ih := arraySort_of_valid l (fun m hm => hl m (List.mem_cons_of_mem a hm))
    have hs : ∀ m ∈ List.insertionSort (timeLe env) l, validTimestamp env m = true :=
      fun m hm => hl m (List.mem_cons_of_mem a ((List.mem_insertionSort _).1 hm))
    simp [arraySort, ih, Bind.bind, Except.bind, orderedInsertM_of_valid ha _ hs]

instance (env : Env) : IsTotal JsVal (timeLe env) :=
  ⟨fun a b => le_total (timeKey env a) (timeKey env b)⟩
instance (env : Env) : IsTrans JsVal (timeLe env) := ⟨fun _ _ _ h1 h2 => le_trans h1 h2⟩

theorem insertionSort_filter_key (env : Env) (t : Int) (xs : List JsVal) :
    (List.insertionSort (timeLe env) xs).filter (fun m => decide (timeKey env m = t)) =
      xs.filter (fun m => decide (timeKey env m = t)) := by
  have hsub : List.Sublist (xs.filter (fun m => decide (timeKey env m = t)))
      (List.insertionSort (timeLe env) xs) := by
    apply List.sublist_insertionSort
    · rw [List.pairwise_iff_forall_sublist]
      intro a b hab
      have ha : a ∈ xs.filter (fun m => decide (timeKey env m = t)) := hab.subset (by simp)
      have hb : b ∈ xs.filter (fun m => decide (timeKey env m = t)) := hab.subset (by simp)
      simp only [List.mem_filter, decide_eq_true_eq] at ha hb
      simp [timeLe, ha.2, hb.2]
    · exact List.filter_sublist xs
  have hsub2 := hsub.filter (fun m => decide (timeKey env m = t))
  rw [List.filter_filter] at hsub2
  simp only [Bool.and_self] at hsub2
  have hlen : ((List.insertionSort (timeLe env) xs).filter
      (fun m => decide (timeKey env m = t))).length =
      (xs.filter (fun m => decide (timeKey env m = t))).length :=
    ((List.perm_insertionSort (timeLe env) xs).filter _).length_eq
  exact (hsub2.eq_of_length hlen.symm).symm

theorem trimChars_eq_nil_iff (cs : List Char) :
    trimChars cs = [] ↔ ∀ c ∈ cs, isWhiteSpace c = true := by
  unfold trimChars
  rw [List.reverse_eq_nil_iff, List.dropWhile_eq_nil_iff]
  constructor
  · intro h
    have hnil : cs.dropWhile isWhiteSpace = [] := by
      by_contra hne
      have h1 := List.head_dropWhile_not isWhiteSpace cs hne
      have h2 := h _ (List.mem_reverse.2 (List.head_mem hne))
      simp [h2] at h1
    exact List.dropWhile_eq_nil_iff.1 hnil
  · intro h
    rw [List.dropWhile_eq_nil_iff.2 h]
    simp

theorem trim_eq_empty_iff (s : String) :
    trim s = "" ↔ ∀ c ∈ s.data, isWhiteSpace c = true := by
  rw [← trimChars_eq_nil_iff]
  unfold trim
  constructor
  · intro h
    have := congrArg String.data h
    simpa using this
  · intro h
    rw [h]

theorem trimChars_head (cs : List Char) (c : Char) (h : (trimChars cs).head? = some c) :
    isWhiteSpace c = false := by
  unfold trimChars at h
  rw [List.head?_reverse] at h
  have hne : (cs.dropWhile isWhiteSpace).reverse.dropWhile isWhiteSpace ≠ [] := by
    intro h0
    simp [h0] at h
  have hsuf := List.dropWhile_suffix (l := (cs.dropWhile isWhiteSpace).reverse) isWhiteSpace
  have hl := hsuf.getLast hne
  have hne2 : cs.dropWhile isWhiteSpace ≠ [] := by
    intro h0
    simp [h0] at hne
  rw [List.getLast?_eq_getLast _ hne, hl] at h
  simp only [List.getLast_reverse, Option.some.injEq] at h
  have := List.head_dropWhile_not isWhiteSpace cs hne2
  rw [h] at this
  simpa using this

theorem trimChars_getLast (cs : List Char) (c : Char) (h : (trimChars cs).getLast? = some c) :
    isWhiteSpace c = false := by
  unfold trimChars at h
  rw [List.getLast?_reverse] at h
  have := List.head?_dropWhile_not isWhiteSpace (cs.dropWhile isWhiteSpace).reverse
  rw [h] at this
  simpa using this

theorem trim_eq_empty_iff_isBlank (s : String) : trim s = "" ↔ isBlank s = true := by
  rw [trim_eq_empty_iff]
  simp [isBlank, List.all_eq_true]

theorem append_ne_empty (a b : String) (h : a ≠ "") : a ++ b ≠ "" := by
  intro h0
  apply h
  have h1 := congrArg String.data h0
  rw [String.data_append] at h1
  have h2 : a.data = [] := (List.append_eq_nil.1 h1).1
  exact String.ext h2

theorem errString_mkError (m : String) (h : m ≠ "") : errString (mkError m) = m := by
  simp [errString, mkError, h]

theorem errString_get_status (status : Nat) :
    errString (mkError ("GET falhou: " ++ toString status)) = "GET falhou: " ++ toString status :=
  errString_mkError _ (append_ne_empty _ _ (by decide))

theorem errString_post_status (status : Nat) (t : String) :
    errString (mkError ("POST falhou: " ++ toString status ++ " " ++ t)) =
      "POST falhou: " ++ toString status ++ " " ++ t :=
  errString_mkError _
    (append_ne_empty _ _ (append_ne_empty _ _ (append_ne_empty _ _ (by decide))))

theorem handleSend_blank (env : Env) (w : World) (h : trim w.app.text = "") :
    handleSend env w =
      (.ok (), { w with alerts := w.alerts ++ [⟨"Validação", "Digite uma mensagem."⟩] }) := by
  simp [handleSend, h, alert]

theorem handleSend_rejected (env : Env) (w : World) (e : JsError) (h : trim w.app.text ≠ "")
    (hp : env.post = .rejected e) :
    handleSend env w =
      (.ok (),
        { app := { w.app with submitting := false },
          requests := w.requests ++
            [Request.post API_URL "application/json"
              ⟨w.app.username, trim w.app.text, env.nowIso⟩],
          alerts := w.alerts ++ [⟨"Erro ao enviar", errString e⟩] }) := by
  simp [handleSend, h, tryCatchFinally, handleSendTry, Bind.bind, Js.bind, setSubmitting,
    fetchPost, hp, alert]

theorem handleSend_status (env : Env) (w : World) (status : Nat) (t : Option String)
    (h : trim w.app.text ≠ "") (hp : env.post = .resolved status t)
    (hs : statusOk status = false) :
    handleSend env w =
      (.ok (),
        { app := { w.app with submitting := false },
          requests := w.requests ++
            [Request.post API_URL "application/json"
              ⟨w.app.username, trim w.app.text, env.nowIso⟩],
          alerts := w.alerts ++
            [⟨"Erro ao enviar", "POST falhou: " ++ toString status ++ " " ++ t.getD ""⟩] }) := by
  simp [handleSend, h, tryCatchFinally, handleSendTry, Bind.bind, Js.bind, setSubmitting,
    fetchPost, hp, hs, alert, throwJs, errString_post_status]

theorem handleSend_accepted (env : Env) (w : World) (status : Nat) (t : Option String)
    (h : trim w.app.text ≠ "") (hp : env.post = .resolved status t)
    (hs : statusOk status = true) :
    handleSend env w =
      (.ok (),
        match fetchAllValue env with
        | .ok sorted =>
          { app := { w.app with
              messages := sorted, loadingList := false, text := "", submitting := false },
            requests := w.requests ++
              [Request.post API_URL "application/json"
                ⟨w.app.username, trim w.app.text, env.nowIso⟩, Request.get API_URL],
            alerts := w.alerts }
        | .error e =>
          { app := { w.app with loadingList := false, text := "", submitting := false },
            requests := w.requests ++
              [Request.post API_URL "application/json"
                ⟨w.app.username, trim w.app.text, env.nowIso⟩, Request.get API_URL],
            alerts := w.alerts ++ [⟨"Erro ao buscar", errString e⟩] }) := by
  cases hv : fetchAllValue env with
  | ok sorted =>
    simp [handleSend, h, tryCatchFinally, handleSendTry, Bind.bind, Js.bind, setSubmitting,
      fetchPost, hp, hs, alert, throwJs, setText, Pure.pure, Js.pure, fetchAll_eq, hv]
  | error e =>
    simp [handleSend, h, tryCatchFinally, handleSendTry, Bind.bind, Js.bind, setSubmitting,
      fetchPost, hp, hs, alert, throwJs, setText, Pure.pure, Js.pure, fetchAll_eq, hv]


theorem trim_ne_empty_of_not_blank {s : String} (h : isBlank s = false) : trim s ≠ "" := by
  intro h0
  rw [trim_eq_empty_iff_isBlank] at h0
  simp [h0] at h

/-! ## Properties of the specification -/

/-- Claim C1: when the GET succeeds with an array whose elements all have a valid `createdAt`
timestamp, `fetchAll` returns normally, raises no alert and sets `messages` to the stable sort
of the array by time value: a permutation of the array, in non-decreasing time order, in which
the elements of each single time value keep the order they arrived in. -/
theorem fetchAll_sorts_by_createdAt (env : Env) (w : World) (status : Nat) (xs : List JsVal)
    (hget : env.get = .resolved status (.ok (.arr xs))) (hok : statusOk status = true)
    (hvalid : ∀ m ∈ xs, validTimestamp env m = true) :
    (fetchAll env w).1 = .ok () ∧
    (fetchAll env w).2.alerts = w.alerts ∧
    (fetchAll env w).2.app.messages = List.insertionSort (timeLe env) xs ∧
    List.Perm (fetchAll env w).2.app.messages xs ∧
    List.Sorted (timeLe env) (fetchAll env w).2.app.messages ∧
    ∀ t : Int, (fetchAll env w).2.app.messages.filter (fun m => decide (timeKey env m = t)) =
      xs.filter (fun m => decide (timeKey env m = t)) := by
  have hv : fetchAllValue env = .ok (List.insertionSort (timeLe env) xs) := by
    simp [fetchAllValue, hget, hok, spread, Bind.bind, Except.bind, arraySort_of_valid xs hvalid]
  have hm : (fetchAll env w).2.app.messages = List.insertionSort (timeLe env) xs := by
    rw [fetchAll_eq, hv]
  refine ⟨by rw [fetchAll_eq], by rw [fetchAll_eq, hv], hm, ?_, ?_, ?_⟩
  · rw [hm]
    exact List.perm_insertionSort (timeLe env) xs
  · rw [hm]
    exact List.sorted_insertionSort (timeLe env) xs
  · intro t
    rw [hm]
    exact insertionSort_filter_key env t xs

/-- Scenario of claim C1: the response `[bob/hi@10:00, amy/yo@09:00]` gives the snapshot
`[amy/yo@09:00, bob/hi@10:00]`. -/
theorem fetchAll_sorts_by_createdAt_witness :
    (∀ m ∈ [msgBob, msgAmy], validTimestamp scenarioEnv m = true) ∧
    (fetchAll scenarioEnv typedWorld).2.app.messages = [msgAmy, msgBob] :=
  ⟨by decide,
    (fetchAll_sorts_by_createdAt scenarioEnv typedWorld 200 [msgBob, msgAmy] rfl (by decide)
      (by decide)).2.2.1.trans (by decide)⟩

/-- Claim C2: when the pending text is empty or only white space, `handleSend` raises the
validation alert and returns; it issues no request (neither POST nor GET) and leaves the
whole component state, in particular `messages`, `text` and `submitting`, unchanged. -/
theorem handleSend_blank_text_rejected (env : Env) (w : World)
    (hblank : isBlank w.app.text = true) :
    (handleSend env w).1 = .ok () ∧
    (handleSend env w).2.requests = w.requests ∧
    (handleSend env w).2.app = w.app ∧
    (handleSend env w).2.alerts = w.alerts ++ [⟨"Validação", "Digite uma mensagem."⟩] := by
  rw [handleSend_blank env w ((trim_eq_empty_iff_isBlank _).2 hblank)]
  exact ⟨rfl, rfl, rfl, rfl⟩

/-- Scenario of claim C2: `submit("amy", "   ")`. -/
theorem handleSend_blank_text_rejected_witness :
    isBlank blankWorld.app.text = true ∧
    (handleSend scenarioEnv blankWorld).2.requests = [] ∧
    (handleSend scenarioEnv blankWorld).2.alerts = [⟨"Validação", "Digite uma mensagem."⟩] :=
  ⟨by decide,
    (handleSend_blank_text_rejected scenarioEnv blankWorld (by decide)).2.1,
    (handleSend_blank_text_rejected scenarioEnv blankWorld (by decide)).2.2.2⟩

/-- Claim C3: when the GET is rejected (network error) or resolves with a status outside
200-299, `fetchAll` returns normally (nothing is thrown to the caller), leaves `messages` as
it was, and raises the alert "Erro ao buscar" whose text is the cause of the rejection or
`GET falhou:` followed by the status code. -/
theorem fetchAll_failed_request_keeps_snapshot (env : Env) (w : World)
    (hfail : (∃ e, env.get = .rejected e) ∨
      (∃ status json, env.get = .resolved status json ∧ statusOk status = false)) :
    (fetchAll env w).1 = .ok () ∧
    (fetchAll env w).2.app.messages = w.app.messages ∧
    (∀ e, env.get = .rejected e →
      (fetchAll env w).2.alerts = w.alerts ++ [⟨"Erro ao buscar", errString e⟩]) ∧
    (∀ status json, env.get = .resolved status json →
      (fetchAll env w).2.alerts =
        w.alerts ++ [⟨"Erro ao buscar", "GET falhou: " ++ toString status⟩]) := by
  rcases hfail with ⟨e, he⟩ | ⟨status, json, hr, hs⟩
  · have hv : fetchAllValue env = .error e := by simp [fetchAllValue, he]
    refine ⟨by rw [fetchAll_eq], by rw [fetchAll_eq, hv], ?_, ?_⟩
    · intro e2 he2
      rw [he] at he2
      cases he2
      rw [fetchAll_eq, hv]
    · intro status json hr
      rw [he] at hr
      cases hr
  · have hv : fetchAllValue env = .error (mkError ("GET falhou: " ++ toString status)) := by
      simp [fetchAllValue, hr, hs]
    refine ⟨by rw [fetchAll_eq], by rw [fetchAll_eq, hv], ?_, ?_⟩
    · intro e he
      rw [hr] at he
      cases he
    · intro status2 json2 hr2
      rw [hr] at hr2
      cases hr2
      rw [fetchAll_eq, hv]
      simp only [errString_get_status]

/-- Scenario of claim C3: the GET answers HTTP 503 while one message is shown. -/
theorem fetchAll_failed_request_keeps_snapshot_witness :
    (fetchAll getFailsEnv typedWorld).1 = .ok () ∧
    (fetchAll getFailsEnv typedWorld).2.app.messages = [msgAmy] ∧
    (fetchAll getFailsEnv typedWorld).2.alerts = [⟨"Erro ao buscar", "GET falhou: 503"⟩] :=
  have h := fetchAll_failed_request_keeps_snapshot getFailsEnv typedWorld
    (Or.inr ⟨503, _, rfl, by decide⟩)
  ⟨h.1, h.2.1, h.2.2.2 503 _ rfl⟩

/-- Claim C4: when the text is not blank and the POST is rejected or resolves with a status
outside 200-299, `handleSend` returns normally, raises the alert "Erro ao enviar" whose text
is the cause of the rejection or `POST falhou:` followed by the status code and the response
text, keeps the pending text and `messages`, and issues the POST and nothing else (no GET). -/
theorem handleSend_failed_post (env : Env) (w : World) (hnb : isBlank w.app.text = false)
    (hfail : (∃ e, env.post = .rejected e) ∨
      (∃ status t, env.post = .resolved status t ∧ statusOk status = false)) :
    (handleSend env w).1 = .ok () ∧
    (handleSend env w).2.app.text = w.app.text ∧
    (handleSend env w).2.app.messages = w.app.messages ∧
    (handleSend env w).2.requests = w.requests ++
      [Request.post API_URL "application/json"
        ⟨w.app.username, trim w.app.text, env.nowIso⟩] ∧
    (∀ e, env.post = .rejected e →
      (handleSend env w).2.alerts = w.alerts ++ [⟨"Erro ao enviar", errString e⟩]) ∧
    (∀ status t, env.post = .resolved status t →
      (handleSend env w).2.alerts = w.alerts ++
        [⟨"Erro ao enviar", "POST falhou: " ++ toString status ++ " " ++ t.getD ""⟩]) := by
  have hne := trim_ne_empty_of_not_blank hnb
  rcases hfail with ⟨e, he⟩ | ⟨status, t, hr, hs⟩
  · rw [handleSend_rejected env w e hne he]
    refine ⟨rfl, rfl, rfl, rfl, ?_, ?_⟩
    · intro e2 he2
      rw [he] at he2
      cases he2
      rfl
    · intro status t hr
      rw [he] at hr
      cases hr
  · rw [handleSend_status env w status t hne hr hs]
    refine ⟨rfl, rfl, rfl, rfl, ?_, ?_⟩
    · intro e he
      rw [hr] at he
      cases he
    · intro status2 t2 hr2
      rw [hr] at hr2
      cases hr2
      rfl

/-- Scenario of claim C4: the create request returns HTTP 500. -/
theorem handleSend_failed_post_witness :
    isBlank typedWorld.app.text = false ∧
    (handleSend postFailsEnv typedWorld).2.app.text = " hi " ∧
    (handleSend postFailsEnv typedWorld).2.requests =
      [Request.post API_URL "application/json" ⟨"amy", "hi", "2024-01-01T11:00:00.000Z"⟩] ∧
    (handleSend postFailsEnv typedWorld).2.alerts = [⟨"Erro ao enviar", "POST falhou: 500 "⟩] :=
  have h := handleSend_failed_post postFailsEnv typedWorld (by decide)
    (Or.inr ⟨500, none, rfl, by decide⟩)
  ⟨by decide, h.2.1, h.2.2.2.1.trans (by decide), (h.2.2.2.2.2 500 none rfl).trans (by decide)⟩

/-- Claim C5: when the text is not blank and the POST resolves with a status in 200-299,
`handleSend` clears the pending text and issues exactly two requests, the POST and then one
GET: the refresh starts after the response of the POST has been observed. -/
theorem handleSend_success_refreshes_once (env : Env) (w : World) (status : Nat)
    (t : Option String) (hnb : isBlank w.app.text = false)
    (hp : env.post = .resolved status t) (hs : statusOk status = true) :
    (handleSend env w).1 = .ok () ∧
    (handleSend env w).2.app.text = "" ∧
    (handleSend env w).2.requests = w.requests ++
      [Request.post API_URL "application/json" ⟨w.app.username, trim w.app.text, env.nowIso⟩,
        Request.get API_URL] := by
  rw [handleSend_accepted env w status t (trim_ne_empty_of_not_blank hnb) hp hs]
  cases fetchAllValue env <;> exact ⟨rfl, rfl, rfl⟩

/-- Scenario of claim C5: amy sends ` hi ` and the server accepts it. -/
theorem handleSend_success_refreshes_once_witness :
    isBlank typedWorld.app.text = false ∧
    (handleSend scenarioEnv typedWorld).2.app.text = "" ∧
    (handleSend scenarioEnv typedWorld).2.requests =
      [Request.post API_URL "application/json" ⟨"amy", "hi", "2024-01-01T11:00:00.000Z"⟩,
        Request.get API_URL] :=
  have h := handleSend_success_refreshes_once scenarioEnv typedWorld 201 (some "") (by decide)
    rfl (by decide)
  ⟨by decide, h.2.1, h.2.2.trans (by decide)⟩

/-- Claim C6: while a submission is pending the send action is refused. When `handleSend` is
called with a text that is not blank, its `try` block raises `submitting` and issues the POST
before it suspends, and resumes from that pending world. In the pending world, whatever text
has been typed meanwhile, a press on the send button (line 167, `disabled={submitting}`, the
only caller of `handleSend`) does not call `handleSend`: the trace still holds the one POST,
nothing is raised and the state, still busy, is unchanged. The same holds in every state with
`submitting = true`. -/
theorem pressSend_refused_while_submit_pending (env env2 : Env) (w : World) (typed : String)
    (hnb : isBlank w.app.text = false) :
    handleSend env w =
      tryCatchFinally (handleSendTry env ⟨w.app.username, trim w.app.text, env.nowIso⟩)
        (fun err => alert "Erro ao enviar" (errString err)) (setSubmitting false) w ∧
    handleSendTry env ⟨w.app.username, trim w.app.text, env.nowIso⟩ w =
      handleSendResume env (pendingWorld env w) ∧
    (pendingWorld env w).app.submitting = true ∧
    (pendingWorld env w).requests = w.requests ++
      [Request.post API_URL "application/json"
        ⟨w.app.username, trim w.app.text, env.nowIso⟩] ∧
    pressSend env2 (setText typed (pendingWorld env w)).2 =
      (.ok (), (setText typed (pendingWorld env w)).2) ∧
    (pressSend env2 (setText typed (pendingWorld env w)).2).2.requests = w.requests ++
      [Request.post API_URL "application/json"
        ⟨w.app.username, trim w.app.text, env.nowIso⟩] ∧
    (pressSend env2 (setText typed (pendingWorld env w)).2).2.app.submitting = true ∧
    ∀ v : World, v.app.submitting = true → pressSend env2 v = (.ok (), v) := by
  have hne := trim_ne_empty_of_not_blank hnb
  have hpress : ∀ v : World, v.app.submitting = true → pressSend env2 v = (.ok (), v) := by
    intro v hv
    simp [pressSend, hv]
  have hbusy : (setText typed (pendingWorld env w)).2.app.submitting = true := rfl
  refine ⟨?_, ?_, rfl, rfl, hpress _ hbusy, ?_, ?_, hpress⟩
  · simp [handleSend, hne]
  · cases hp : env.post with
    | rejected e =>
      simp [handleSendTry, handleSendResume, pendingWorld, handleSendSuspend, Bind.bind,
        Js.bind, setSubmitting, fetchPost, issuePost, settlePost, hp]
    | resolved status t =>
      cases hs : statusOk status <;>
        simp [handleSendTry, handleSendResume, pendingWorld, handleSendSuspend, Bind.bind,
          Js.bind, setSubmitting, fetchPost, issuePost, settlePost, hp, hs, throwJs]
  · rw [hpress _ hbusy]
    rfl
  · rw [hpress _ hbusy]
    rfl

/-- Scenario of claim C6: amy sends ` hi `, types `again` while the POST is in flight and
presses the send button: the press changes nothing and the trace holds the one POST. -/
theorem pressSend_refused_while_submit_pending_witness :
    isBlank typedWorld.app.text = false ∧
    (pendingWorld scenarioEnv typedWorld).app.submitting = true ∧
    pressSend scenarioEnv (setText "again" (pendingWorld scenarioEnv typedWorld)).2 =
      (.ok (), (setText "again" (pendingWorld scenarioEnv typedWorld)).2) ∧
    (pressSend scenarioEnv (setText "again" (pendingWorld scenarioEnv typedWorld)).2).2.requests
      = [Request.post API_URL "application/json" ⟨"amy", "hi", "2024-01-01T11:00:00.000Z"⟩] :=
  have h := pressSend_refused_while_submit_pending scenarioEnv scenarioEnv typedWorld "again"
    (by decide)
  ⟨by decide, h.2.2.1, h.2.2.2.2.1, h.2.2.2.2.2.1.trans (by decide)⟩

/-- Claim C7: when the text is not blank, the first request `handleSend` issues is the POST
whose body has `author` = the session username, `text` = the trimmed pending text and
`createdAt` = the current instant; the text sent is not empty and neither starts nor ends
with white space. -/
theorem handleSend_payload (env : Env) (w : World) (hnb : isBlank w.app.text = false) :
    (∃ rest, (handleSend env w).2.requests = w.requests ++
      Request.post API_URL "application/json" ⟨w.app.username, trim w.app.text, env.nowIso⟩
        :: rest) ∧
    trim w.app.text ≠ "" ∧
    (∀ c, (trim w.app.text).data.head? = some c → isWhiteSpace c = false) ∧
    (∀ c, (trim w.app.text).data.getLast? = some c → isWhiteSpace c = false) := by
  have hne := trim_ne_empty_of_not_blank hnb
  refine ⟨?_, hne, fun c hc => trimChars_head _ c hc, fun c hc => trimChars_getLast _ c hc⟩
  cases hp : env.post with
  | rejected e =>
    rw [handleSend_rejected env w e hne hp]
    exact ⟨[], rfl⟩
  | resolved status t =>
    cases hs : statusOk status with
    | false =>
      rw [handleSend_status env w status t hne hp hs]
      exact ⟨[], rfl⟩
    | true =>
      rw [handleSend_accepted env w status t hne hp hs]
      cases fetchAllValue env <;> exact ⟨[Request.get API_URL], rfl⟩

/-- Scenario of claim C7: amy sends ` hi `; the body carries `hi`. -/
theorem handleSend_payload_witness :
    isBlank typedWorld.app.text = false ∧ trim typedWorld.app.text = "hi" ∧
    ∃ rest, (handleSend scenarioEnv typedWorld).2.requests = typedWorld.requests ++
      Request.post API_URL "application/json"
        ⟨"amy", trim typedWorld.app.text, "2024-01-01T11:00:00.000Z"⟩ :: rest :=
  ⟨by decide, by decide, (handleSend_payload scenarioEnv typedWorld (by decide)).1⟩

theorem arraySort_length {env : Env} :
    ∀ (xs s : List JsVal), arraySort (compareCreatedAt env) xs = .ok s → s.length = xs.length := by
  have hins : ∀ (a : JsVal) (l s : List JsVal),
      orderedInsertM (compareCreatedAt env) a l = .ok s → s.length = l.length + 1 := by
    intro a l
    induction l with
    | nil =>
      intro s h
      simp [orderedInsertM, Pure.pure, Except.pure] at h
      simp [← h]
    | cons b l ih =>
      intro s h
      simp only [orderedInsertM, Bind.bind, Except.bind, Pure.pure, Except.pure] at h
      cases hc : sortCompare (compareCreatedAt env) a b with
      | error e => simp [hc] at h
      | ok v =>
        simp only [hc] at h
        by_cases hv : v ≤ 0
        · simp [hv] at h
          simp [← h]
        · simp only [hv, if_false] at h
          cases hr : orderedInsertM (compareCreatedAt env) a l with
          | error e => simp [hr] at h
          | ok rest =>
            simp [hr] at h
            simp [← h, ih rest hr]
  intro xs
  induction xs with
  | nil =>
    intro s h
    simp [arraySort, Pure.pure, Except.pure] at h
    simp [← h]
  | cons a l ih =>
    intro s h
    simp only [arraySort, Bind.bind, Except.bind] at h
    cases hl : arraySort (compareCreatedAt env) l with
    | error e => simp [hl] at h
    | ok sl =>
      simp only [hl] at h
      rw [hins a sl s h, ih sl hl]
      rfl

theorem sortCompare_null_left (env : Env) (b : JsVal) :
    ∃ e, sortCompare (compareCreatedAt env) JsVal.null b = .error e := by
  simp [sortCompare, compareCreatedAt, timeOf, getCreatedAt, Bind.bind, Except.bind]

theorem sortCompare_null_right (env : Env) (a : JsVal) :
    ∃ e, sortCompare (compareCreatedAt env) a JsVal.null = .error e := by
  cases ha : timeOf env a with
  | error e => simp [sortCompare, compareCreatedAt, ha, Bind.bind, Except.bind]
  | ok v =>
    have hn : timeOf env JsVal.null = .error ⟨"TypeError", env.nullPropertyMessage⟩ := by
      simp [timeOf, getCreatedAt, Bind.bind, Except.bind]
    simp [sortCompare, compareCreatedAt, ha, hn, Bind.bind, Except.bind]

theorem arraySort_null (env : Env) :
    ∀ xs : List JsVal, JsVal.null ∈ xs → 2 ≤ xs.length →
      ∃ e, arraySort (compareCreatedAt env) xs = .error e
  | [], _, hlen => by simp at hlen
  | a :: l, hmem, hlen => by
    simp only [arraySort, Bind.bind, Except.bind]
    cases hl : arraySort (compareCreatedAt env) l with
    | error e => exact ⟨e, rfl⟩
    | ok sl =>
      have hsl := arraySort_length l sl hl
      simp only
      by_cases ha : a = JsVal.null
      · subst ha
        cases sl with
        | nil => simp at hsl hlen; omega
        | cons b s =>
          obtain ⟨e, he⟩ := sortCompare_null_left env b
          exact ⟨e, by simp [orderedInsertM, he, Bind.bind, Except.bind]⟩
      · have hml : JsVal.null ∈ l := by
          rcases List.mem_cons.1 hmem with h | h
          · exact absurd h.symm ha
          · exact h
        by_cases h2 : 2 ≤ l.length
        · obtain ⟨e, he⟩ := arraySort_null env l hml h2
          rw [he] at hl
          cases hl
        · cases l with
          | nil => simp at hml
          | cons x l2 =>
            cases l2 with
            | cons y l3 => simp at h2
            | nil =>
              have hx : x = JsVal.null := by
                simp at hml
                exact hml.symm
              subst hx
              have : sl = [JsVal.null] := by
                simp [arraySort, orderedInsertM, Bind.bind, Except.bind, Pure.pure,
                  Except.pure] at hl
                exact hl.symm
              subst this
              obtain ⟨e, he⟩ := sortCompare_null_right env a
              exact ⟨e, by simp [orderedInsertM, he, Bind.bind, Except.bind]⟩

theorem fetchAllValue_of_bodyRejected (env : Env) (status : Nat) (json : Except JsError JsVal)
    (hget : env.get = .resolved status json) (hok : statusOk status = true)
    (hbad : bodyRejected json = true) : ∃ e, fetchAllValue env = .error e := by
  cases json with
  | error e => exact ⟨e, by simp [fetchAllValue, hget, hok, Bind.bind, Except.bind]⟩
  | ok v =>
    cases v with
    | null => exact ⟨_, by simp [fetchAllValue, hget, hok, Bind.bind, Except.bind, spread]; rfl⟩
    | bool b => exact ⟨_, by simp [fetchAllValue, hget, hok, Bind.bind, Except.bind, spread]; rfl⟩
    | num n => exact ⟨_, by simp [fetchAllValue, hget, hok, Bind.bind, Except.bind, spread]; rfl⟩
    | obj f => exact ⟨_, by simp [fetchAllValue, hget, hok, Bind.bind, Except.bind, spread]; rfl⟩
    | str s => simp [bodyRejected] at hbad
    | arr xs =>
      simp only [bodyRejected, Bool.and_eq_true, List.any_eq_true, decide_eq_true_eq] at hbad
      obtain ⟨⟨x, hx, hnull⟩, hlen⟩ := hbad
      have hxn : x = JsVal.null := by
        cases x <;> simp [JsVal.isNull] at hnull
        rfl
      subst hxn
      obtain ⟨e, he⟩ := arraySort_null env xs hx hlen
      exact ⟨e, by simp [fetchAllValue, hget, hok, Bind.bind, Except.bind, spread, he]⟩

/-- Claim C8 as stated fails: a success response whose body is the JSON string `"ab"` is
spread into its characters, sorted without an error, and replaces the snapshot; no alert is
raised. -/
theorem fetchAll_accepts_string_body :
    stringBodyEnv.get = .resolved 200 (.ok (.str "ab")) ∧ statusOk 200 = true ∧
    (fetchAll stringBodyEnv typedWorld).2.app.messages = [.str "a", .str "b"] ∧
    (fetchAll stringBodyEnv typedWorld).2.app.messages ≠ typedWorld.app.messages ∧
    (fetchAll stringBodyEnv typedWorld).2.alerts = typedWorld.alerts :=
  ⟨rfl, by decide, by decide, by decide, by decide⟩

/-- Claim C8, amended: when the GET resolves with a success status and the body does not parse
as JSON, or parses to `null`, a boolean, a number or an object, or parses to an array of two
or more elements one of which is `null`, `fetchAll` returns normally, leaves `messages` as it
was and raises the alert "Erro ao buscar". -/
theorem fetchAll_rejected_body_keeps_snapshot (env : Env) (w : World) (status : Nat)
    (json : Except JsError JsVal) (hget : env.get = .resolved status json)
    (hok : statusOk status = true) (hbad : bodyRejected json = true) :
    (fetchAll env w).1 = .ok () ∧
    (fetchAll env w).2.app.messages = w.app.messages ∧
    ∃ msg, (fetchAll env w).2.alerts = w.alerts ++ [⟨"Erro ao buscar", msg⟩] := by
  obtain ⟨e, he⟩ := fetchAllValue_of_bodyRejected env status json hget hok hbad
  rw [fetchAll_eq, he]
  exact ⟨rfl, rfl, errString e, rfl⟩

/-- Scenario of claim C8, amended: the body is the empty JSON object. -/
theorem fetchAll_rejected_body_keeps_snapshot_witness :
    bodyRejected (.ok (.obj [])) = true ∧
    (fetchAll objectBodyEnv typedWorld).2.app.messages = [msgAmy] ∧
    ∃ msg, (fetchAll objectBodyEnv typedWorld).2.alerts = [⟨"Erro ao buscar", msg⟩] :=
  have h := fetchAll_rejected_body_keeps_snapshot objectBodyEnv typedWorld 200 (.ok (.obj []))
    rfl (by decide) rfl
  ⟨rfl, h.2.1, h.2.2⟩

/-- Claim C9: when the text is not blank, the POST succeeds and the refresh that follows fails
(the `try` block of `fetchAll` throws `e`, see `fetchAllTry_throws_iff`), `handleSend` returns normally and the one alert it
adds is the fetch alert "Erro ao buscar"; no submit alert "Erro ao enviar" is added, the
pending text stays cleared and `messages` keeps its value from before the submit. -/
theorem handleSend_refresh_failure_is_fetch_error (env : Env) (w : World) (status : Nat)
    (t : Option String) (e : JsError) (hnb : isBlank w.app.text = false)
    (hp : env.post = .resolved status t) (hs : statusOk status = true)
    (hfail : fetchAllValue env = .error e) :
    (handleSend env w).1 = .ok () ∧
    (handleSend env w).2.alerts = w.alerts ++ [⟨"Erro ao buscar", errString e⟩] ∧
    (∀ msg, (⟨"Erro ao enviar", msg⟩ : AlertBox) ∈ (handleSend env w).2.alerts →
      (⟨"Erro ao enviar", msg⟩ : AlertBox) ∈ w.alerts) ∧
    (handleSend env w).2.app.text = "" ∧
    (handleSend env w).2.app.messages = w.app.messages := by
  rw [handleSend_accepted env w status t (trim_ne_empty_of_not_blank hnb) hp hs, hfail]
  refine ⟨rfl, rfl, ?_, rfl, rfl⟩
  intro msg hmem
  simp only [List.mem_append, List.mem_singleton, AlertBox.mk.injEq] at hmem
  rcases hmem with h | ⟨h, _⟩
  · exact h
  · exact absurd h (by decide)

/-- Scenario of claim C9: the POST is accepted and the GET that follows answers HTTP 503. -/
theorem handleSend_refresh_failure_is_fetch_error_witness :
    isBlank typedWorld.app.text = false ∧
    (handleSend getFailsEnv typedWorld).2.alerts = [⟨"Erro ao buscar", "GET falhou: 503"⟩] ∧
    (handleSend getFailsEnv typedWorld).2.app.text = "" ∧
    (handleSend getFailsEnv typedWorld).2.app.messages = [msgAmy] :=
  have h := handleSend_refresh_failure_is_fetch_error getFailsEnv typedWorld 201 (some "")
    (mkError "GET falhou: 503") (by decide) rfl (by decide) rfl
  ⟨by decide, h.2.1.trans (by decide), h.2.2.2.1, h.2.2.2.2⟩

/-- Claim C10: every call of `fetchAll` returns normally with `loadingList = false`, and every
call of `handleSend` with a text that is not blank returns normally with `submitting = false`,
whatever the outcomes of the POST and of the GET; the send button is then enabled again, so the
next press calls `handleSend`. -/
theorem operations_return_to_idle (env : Env) (w v : World)
    (hnb : isBlank v.app.text = false) :
    (fetchAll env w).1 = .ok () ∧
    (fetchAll env w).2.app.loadingList = false ∧
    (handleSend env v).1 = .ok () ∧
    (handleSend env v).2.app.submitting = false ∧
    ∀ env2, pressSend env2 (handleSend env v).2 = handleSend env2 (handleSend env v).2 := by
  have hne := trim_ne_empty_of_not_blank hnb
  have hsend : (handleSend env v).1 = .ok () ∧ (handleSend env v).2.app.submitting = false := by
    cases hp : env.post with
    | rejected e =>
      rw [handleSend_rejected env v e hne hp]
      exact ⟨rfl, rfl⟩
    | resolved status t =>
      cases hs : statusOk status with
      | false =>
        rw [handleSend_status env v status t hne hp hs]
        exact ⟨rfl, rfl⟩
      | true =>
        rw [handleSend_accepted env v status t hne hp hs]
        cases fetchAllValue env <;> exact ⟨rfl, rfl⟩
  refine ⟨by rw [fetchAll_eq], ?_, hsend.1, hsend.2, ?_⟩
  · rw [fetchAll_eq]
    cases fetchAllValue env <;> rfl
  · intro env2
    simp [pressSend, hsend.2]

/-- Scenario of claim C10: a refresh that fails and a submission whose POST fails both end
idle. -/
theorem operations_return_to_idle_witness :
    isBlank busyWorld.app.text = false ∧
    (fetchAll getFailsEnv typedWorld).2.app.loadingList = false ∧
    (handleSend postFailsEnv busyWorld).2.app.submitting = false :=
  have h := operations_return_to_idle getFailsEnv typedWorld busyWorld (by decide)
  have h2 := operations_return_to_idle postFailsEnv typedWorld busyWorld (by decide)
  ⟨by decide, h.2.1, h2.2.2.2.1⟩

end ChatReact
